import Mathlib

/-!
# Verification of the MCP multi-server supervisor (`mcp_manager.py`)

A shallow embedding of the supervisor daemon: its identity scheme
(`get_id_from_command`), uptime formatting (`format_uptime`), the registry
state (`configured_servers`, `managed_processes`, `stopped_processes`),
the command handler for `status` / `start` / `stop` / `restart` / `apply`,
the monitor-loop tick, and the initial launch performed by `main`.

Machine integers are modelled as `Nat` with explicit masking by `2^32 - 1`
where the SHA-1 arithmetic overflows.  Child-process spawning is modelled
by a launcher oracle `launch : List String → Option Nat` returning the PID
of a successfully spawned process (or `none` on spawn failure), and process
death observed by `poll()` is modelled by a set of dead PIDs passed to the
monitor tick.  Wall-clock timestamps are `Nat` seconds.
-/

/-! ## SHA-1 (model of `hashlib.sha1`, used by `get_id_from_command`) -/

/-- Mask to 32 bits. -/
def mask32 (x : Nat) : Nat := x &&& 0xFFFFFFFF

/-- Rotate a 32-bit word left by `n` bits. -/
def rotl32 (n x : Nat) : Nat := mask32 ((x <<< n) ||| (x >>> (32 - n)))

/-- SHA-1 padding: append `0x80`, zeros to 56 mod 64, then the 64-bit
big-endian bit length of the message. -/
def sha1Pad (msg : List Nat) : List Nat :=
  let len := msg.length
  let bitLen := len * 8
  let padZeros := (55 + 64 - len % 64) % 64
  msg ++ [0x80] ++ List.replicate padZeros 0 ++
    (List.range 8).map (fun i => (bitLen >>> ((7 - i) * 8)) &&& 0xFF)

/-- Group bytes into big-endian 32-bit words (groups of four). -/
def bytesToWords : List Nat → List Nat
  | a :: b :: c :: d :: rest => (((a * 256 + b) * 256 + c) * 256 + d) :: bytesToWords rest
  | _ => []

/-- The 80-word SHA-1 message schedule of one 16-word chunk. -/
def sha1Schedule (ws : List Nat) : Array Nat :=
  (List.range 80).foldl
    (fun arr i =>
      if i < 16 then arr.push (ws.getD i 0)
      else
        let x := Nat.xor (Nat.xor (arr.getD (i - 3) 0) (arr.getD (i - 8) 0))
                   (Nat.xor (arr.getD (i - 14) 0) (arr.getD (i - 16) 0))
        arr.push (rotl32 1 x))
    #[]

/-- One SHA-1 round. -/
def sha1Round (w : Array Nat) (st : Nat × Nat × Nat × Nat × Nat) (i : Nat) :
    Nat × Nat × Nat × Nat × Nat :=
  let a := st.1
  let b := st.2.1
  let c := st.2.2.1
  let d := st.2.2.2.1
  let e := st.2.2.2.2
  let fk : Nat × Nat :=
    if i < 20 then (Nat.lor (Nat.land b c) (Nat.land (Nat.xor b 0xFFFFFFFF) d), 0x5A827999)
    else if i < 40 then (Nat.xor (Nat.xor b c) d, 0x6ED9EBA1)
    else if i < 60 then (Nat.lor (Nat.lor (Nat.land b c) (Nat.land b d)) (Nat.land c d), 0x8F1BBCDC)
    else (Nat.xor (Nat.xor b c) d, 0xCA62C1D6)
  let temp := mask32 (rotl32 5 a + fk.1 + e + fk.2 + w.getD i 0)
  (temp, a, rotl32 30 b, c, d)

/-- Compress one 64-byte chunk into the running hash state. -/
def sha1Compress (h : Nat × Nat × Nat × Nat × Nat) (chunk : List Nat) :
    Nat × Nat × Nat × Nat × Nat :=
  let w := sha1Schedule (bytesToWords chunk)
  let r := (List.range 80).foldl (sha1Round w) h
  (mask32 (h.1 + r.1), mask32 (h.2.1 + r.2.1), mask32 (h.2.2.1 + r.2.2.1),
   mask32 (h.2.2.2.1 + r.2.2.2.1), mask32 (h.2.2.2.2 + r.2.2.2.2))

/-- Split a byte list into 64-byte chunks, with a structural fuel bound
(the fuel is always at least the number of chunks). -/
def chunks64Aux : Nat → List Nat → List (List Nat)
  | 0, _ => []
  | _, [] => []
  | fuel + 1, a :: l => ((a :: l).take 64) :: chunks64Aux fuel ((a :: l).drop 64)

/-- Split a byte list into 64-byte chunks. -/
def chunks64 (l : List Nat) : List (List Nat) :=
  chunks64Aux l.length l

/-- A lower-case hexadecimal digit. -/
def hexDigit (n : Nat) : Char :=
  if n < 10 then Char.ofNat (48 + n) else Char.ofNat (87 + n)

/-- Eight-hex-digit rendering of a 32-bit word. -/
def toHex8 (x : Nat) : String :=
  String.mk ((List.range 8).map (fun i => hexDigit ((x >>> ((7 - i) * 4)) &&& 0xF)))

/-- SHA-1 digest of a byte string, as a 40-character lower-case hex string
(model of `hashlib.sha1(...).hexdigest()`). -/
def sha1Hex (msg : List Nat) : String :=
  let r := (chunks64 (sha1Pad msg)).foldl sha1Compress
    (0x67452301, 0xEFCDAB89, 0x98BADCFE, 0x10325476, 0xC3D2E1F0)
  toHex8 r.1 ++ toHex8 r.2.1 ++ toHex8 r.2.2.1 ++ toHex8 r.2.2.2.1 ++ toHex8 r.2.2.2.2

/-- UTF-8 bytes of a string (model of Python `str.encode()`; the byte list
underlying `String.toUTF8`). -/
def strBytes (s : String) : List Nat :=
  (s.data.flatMap String.utf8EncodeChar).map (fun b => b.toNat)

/-- `get_id_from_command`: hash-based ID from a command list —
`hashlib.sha1(' '.join(command_list).encode()).hexdigest()[:7]`. -/
def get_id_from_command (command_list : List String) : String :=
  let command_str := " ".intercalate command_list
  (sha1Hex (strBytes command_str)).take 7

/-- The spec-side identity contract, written from the spec's words:
"first 7 hex characters of SHA-1 over the space-joined argv string". -/
def serverIdSpec (commandSpec : List String) : String :=
  (sha1Hex (strBytes (" ".intercalate commandSpec))).take 7

/-! ## `format_uptime` -/

/-- Two-digit zero-padded decimal rendering. -/
def pad2 (n : Nat) : String :=
  if n < 10 then "0" ++ toString n else toString n

/-- Model of `str(datetime.timedelta(seconds=t))` for a non-negative whole
number of seconds `t`. -/
def timedeltaStr (t : Nat) : String :=
  let days := t / 86400
  let rem := t % 86400
  let core := toString (rem / 3600) ++ ":" ++ pad2 (rem % 3600 / 60) ++ ":" ++ pad2 (rem % 60)
  if days = 0 then core
  else if days = 1 then "1 day, " ++ core
  else toString days ++ " days, " ++ core

/-- `format_uptime`: convert seconds to an `'X days, HH:MM:SS'` string;
`None` maps to `'N/A'`, negative input to `"00:00:00"`. -/
def format_uptime (seconds : Option Int) : String :=
  match seconds with
  | none => "N/A"
  | some s => if s < 0 then "00:00:00" else timedeltaStr s.toNat

/-! ## Registry state -/

/-- One entry of `managed_processes`:
`{'proc': Popen, 'command': list, 'start_time': datetime}`, with the live
process handle modelled by its PID and the start time in seconds. -/
structure ManagedInfo where
  pid : Nat
  command : List String
  start_time : Nat
deriving DecidableEq

/-- The supervisor registry: the three global dictionaries guarded by
`process_lock`, modelled as association lists in insertion order. -/
structure St where
  configured : List (String × List String)
  managed : List (String × ManagedInfo)
  stopped : List (String × List String)
deriving DecidableEq

/-- Dictionary lookup on an association list (first match). -/
def lookupA {α : Type} (k : String) : List (String × α) → Option α
  | [] => none
  | p :: ps => if p.1 = k then some p.2 else lookupA k ps

/-- Dictionary key removal (`dict.pop(k, ...)`). -/
def eraseKey {α : Type} (k : String) : List (String × α) → List (String × α)
  | [] => []
  | p :: ps => if p.1 = k then eraseKey k ps else p :: eraseKey k ps

/-- Dictionary assignment `d[k] = v`: update in place when the key is
present, append otherwise (Python dicts preserve insertion order). -/
def upsert {α : Type} (k : String) (v : α) (l : List (String × α)) : List (String × α) :=
  if (lookupA k l).isSome then l.map (fun p => if p.1 = k then (k, v) else p)
  else l ++ [(k, v)]

/-- One row of the `status` payload.  `pid = none` and `uptime = none`
render as the literal `'N/A'` in the JSON response. -/
structure StatusEntry where
  id : String
  status : String
  pid : Option Nat
  uptime : Option String
  command : String
deriving DecidableEq

/-- A control-socket response: `{'status': 'ok'|'error', 'message': ...}`
or the `status` payload `{'status': 'ok', 'payload': [...]}`. -/
inductive Resp where
  | ok (message : String)
  | error (message : String)
  | okPayload (payload : List StatusEntry)
deriving DecidableEq

/-- One row of the `status` loop body for a `configured_servers` item `p`:
`Running` when managed, else `Stopped` when a stopped marker exists,
else `Idle`. -/
def statusRow (s : St) (now : Nat) (p : String × List String) : StatusEntry :=
  let cmd_str := " ".intercalate p.2
  match lookupA p.1 s.managed with
  | some info =>
      { id := p.1, status := "Running", pid := some info.pid,
        uptime := some (format_uptime (some ((now : Int) - (info.start_time : Int)))),
        command := cmd_str }
  | none =>
      if (lookupA p.1 s.stopped).isSome then
        { id := p.1, status := "Stopped", pid := none, uptime := none, command := cmd_str }
      else
        { id := p.1, status := "Idle", pid := none, uptime := none, command := cmd_str }

/-- The `status` command body: one row per `configured_servers` entry. -/
def doStatus (s : St) (now : Nat) : List StatusEntry :=
  s.configured.map (statusRow s now)

/-- The `stop` command: on a configured, running id, pop it from
`managed_processes`, request termination, and record a stopped marker. -/
def doStop (s : St) (sid : String) : Resp × St :=
  if sid = "" then (.error ("ID '" ++ sid ++ "' is not a valid ID."), s)
  else
    match lookupA sid s.configured with
    | none => (.error ("ID '" ++ sid ++ "' is not a valid ID."), s)
    | some _ =>
      match lookupA sid s.managed with
      | some info =>
          (.ok ("Server with ID '" ++ sid ++ "' has been stopped."),
           { s with managed := eraseKey sid s.managed,
                    stopped := upsert sid info.command s.stopped })
      | none => (.error ("Server with ID '" ++ sid ++ "' is not running."), s)

/-- The `start` command: on a configured, non-running id, clear any stopped
marker, then spawn; record the managed entry only when the spawn succeeds. -/
def doStart (launch : List String → Option Nat) (now : Nat) (s : St) (sid : String) :
    Resp × St :=
  if sid = "" then (.error ("ID '" ++ sid ++ "' is not a valid ID."), s)
  else
    match lookupA sid s.configured with
    | none => (.error ("ID '" ++ sid ++ "' is not a valid ID."), s)
    | some command_to_run =>
      match lookupA sid s.managed with
      | some _ => (.error ("Server with ID '" ++ sid ++ "' is already running."), s)
      | none =>
        let stopped1 := eraseKey sid s.stopped
        match launch command_to_run with
        | some pid =>
            (.ok ("Server with ID '" ++ sid ++ "' has been started."),
             { s with managed := upsert sid ⟨pid, command_to_run, now⟩ s.managed,
                      stopped := stopped1 })
        | none =>
            (.error ("Failed to start server with ID '" ++ sid ++ "'."),
             { s with stopped := stopped1 })

/-- The `restart` command: on a configured, running id, request termination
of the live process and change no registry state — the monitoring loop
handles the relaunch once it observes the exit. -/
def doRestart (s : St) (sid : String) : Resp × St :=
  if sid = "" then (.error ("ID '" ++ sid ++ "' is not a valid ID."), s)
  else
    match lookupA sid s.configured with
    | none => (.error ("ID '" ++ sid ++ "' is not a valid ID."), s)
    | some _ =>
      match lookupA sid s.managed with
      | some _ => (.ok ("Restart requested for server with ID '" ++ sid ++ "'."), s)
      | none => (.error ("Server with ID '" ++ sid ++ "' is not running."), s)

/-- Accumulator of the `apply` loop: the two mutated dictionaries plus the
`started_count` / `error_count` counters. -/
structure ApplyAcc where
  managed : List (String × ManagedInfo)
  stopped : List (String × List String)
  started : Nat
  errors : Nat
deriving DecidableEq

/-- One iteration of the `apply` loop over a `configured_servers` item:
skip ids already running; otherwise clear any stopped marker and spawn,
counting successes and failures. -/
def applyStep (launch : List String → Option Nat) (now : Nat)
    (acc : ApplyAcc) (p : String × List String) : ApplyAcc :=
  if (lookupA p.1 acc.managed).isSome then acc
  else
    let stopped1 := eraseKey p.1 acc.stopped
    match launch p.2 with
    | some pid =>
        { managed := upsert p.1 ⟨pid, p.2, now⟩ acc.managed, stopped := stopped1,
          started := acc.started + 1, errors := acc.errors }
    | none =>
        { managed := acc.managed, stopped := stopped1,
          started := acc.started, errors := acc.errors + 1 }

/-- The `apply` command, parameterized by the configuration `newConf` that
`load_servers_from_conf` produced: replace `configured_servers` wholesale,
then launch every configured id not already running. -/
def doApply (launch : List String → Option Nat) (now : Nat)
    (newConf : List (String × List String)) (s : St) : Resp × St :=
  let acc := newConf.foldl (applyStep launch now) ⟨s.managed, s.stopped, 0, 0⟩
  let resp :=
    if acc.errors > 0 then
      Resp.error ("Configuration applied. Started " ++ toString acc.started ++
        " servers, " ++ toString acc.errors ++ " servers had startup errors.")
    else
      Resp.ok ("Configuration applied. Started " ++ toString acc.started ++ " servers.")
  (resp, { configured := newConf, managed := acc.managed, stopped := acc.stopped })

/-- One iteration of the monitor loop over a dead entry `p`: pop it from
`managed_processes`; when no stopped marker exists (the exit was not
intentional), relaunch after the delay and re-record it on success.
`stopped` is the (never mutated) stopped-marker dictionary. -/
def tickStep (launch : List String → Option Nat) (now : Nat)
    (stopped : List (String × List String))
    (m : List (String × ManagedInfo)) (p : String × ManagedInfo) :
    List (String × ManagedInfo) :=
  let m1 := eraseKey p.1 m
  if (lookupA p.1 stopped).isSome then m1
  else
    match launch p.2.command with
    | some pid => upsert p.1 ⟨pid, p.2.command, now⟩ m1
    | none => m1

/-- One tick of the monitor loop in `main`: collect the managed entries
whose process has exited (`poll() is not None`, modelled by membership of
the PID in `deadPids`), then process each. -/
def monitorTick (launch : List String → Option Nat) (now : Nat)
    (deadPids : List Nat) (s : St) : St :=
  let dead := s.managed.filter (fun p => p.2.pid ∈ deadPids)
  { s with managed := dead.foldl (tickStep launch now s.stopped) s.managed }

/-- The daemon state after `main`'s startup: the loaded configuration,
every successfully spawned server managed, and no stopped markers. -/
def initState (launch : List String → Option Nat) (now : Nat)
    (conf : List (String × List String)) : St :=
  { configured := conf,
    managed := conf.foldl
      (fun m p =>
        match launch p.2 with
        | some pid => upsert p.1 ⟨pid, p.2, now⟩ m
        | none => m) [],
    stopped := [] }

/-- What `conn.recv` plus `json.loads` produced for one connection:
an empty read (client closed: the handler returns silently), undecodable
or malformed JSON (an exception, caught without any reply), or a parsed
request object with its optional `command` and `payload` fields. -/
inductive RecvData where
  | empty
  | malformed
  | parsed (command : Option String) (payload : Option String)
deriving DecidableEq

/-- `handle_client_connection` on one request.  `loadRes` is the outcome of
`load_servers_from_conf` should `apply` run: `none` models a configuration
parse exception (propagated, caught at the top, no reply sent), `some c`
the loaded configuration.  The first component is the reply written to the
client, `none` when the connection is closed without one. -/
def handleRequest (launch : List String → Option Nat) (now : Nat)
    (loadRes : Option (List (String × List String)))
    (d : RecvData) (s : St) : Option Resp × St :=
  match d with
  | .empty => (none, s)
  | .malformed => (none, s)
  | .parsed command payload =>
    let sid := payload.getD ""
    if command = some "status" then (some (.okPayload (doStatus s now)), s)
    else if command = some "start" then
      let r := doStart launch now s sid
      (some r.1, r.2)
    else if command = some "stop" then
      let r := doStop s sid
      (some r.1, r.2)
    else if command = some "restart" then
      let r := doRestart s sid
      (some r.1, r.2)
    else if command = some "apply" then
      match loadRes with
      | none => (none, s)
      | some newConf =>
        let r := doApply launch now newConf s
        (some r.1, r.2)
    else (some (.error "Unknown command."), s)

/-- The running/stopped mutual-exclusion invariant: no ServerID is present
in both `managed_processes` and `stopped_processes`. -/
def RSInv (s : St) : Prop :=
  ∀ k, (lookupA k s.managed).isSome → lookupA k s.stopped = none

/-! ## Concrete example data (used to exercise the theorems) -/

/-- A launcher oracle whose spawns always succeed with PID 99. -/
def launchOk : List String → Option Nat := fun _ => some 99

/-- A launcher oracle whose spawns always fail. -/
def launchFail : List String → Option Nat := fun _ => none

/-- Example registry: one running server and one explicitly stopped one. -/
def stExampleA : St :=
  { configured := [("aaa1111", ["sleep", "100"]), ("bbb2222", ["echo", "x"])],
    managed := [("aaa1111", ⟨41, ["sleep", "100"], 10⟩)],
    stopped := [("bbb2222", ["echo", "x"])] }

/-- Example registry: one running server, no stopped markers. -/
def stExampleB : St :=
  { configured := [("aaa1111", ["sleep", "100"])],
    managed := [("aaa1111", ⟨41, ["sleep", "100"], 10⟩)],
    stopped := [] }

/-- What a status row must report for its id, following the spec's
precedence: `Running` (carrying a PID and an uptime) when a managed entry
exists, else `Stopped` when a stopped marker exists, else `Idle`; the two
non-running forms carry no PID and no uptime. -/
def statusEntryConsistent (s : St) (e : StatusEntry) : Prop :=
  (∃ info, lookupA e.id s.managed = some info ∧ e.status = "Running" ∧
    e.pid = some info.pid ∧ e.uptime ≠ none) ∨
  (lookupA e.id s.managed = none ∧ (lookupA e.id s.stopped).isSome ∧
    e.status = "Stopped" ∧ e.pid = none ∧ e.uptime = none) ∨
  (lookupA e.id s.managed = none ∧ lookupA e.id s.stopped = none ∧
    e.status = "Idle" ∧ e.pid = none ∧ e.uptime = none)

/-! ## Association-list lemmas -/

theorem lookupA_append_some {α : Type} {k : String} {l l' : List (String × α)} {v : α}
    (h : lookupA k l = some v) : lookupA k (l ++ l') = some v := by
  induction l with
  | nil => simp [lookupA] at h
  | cons p ps ih =>
    by_cases hp : p.1 = k
    · simpa [lookupA, hp] using h
    · simp only [lookupA, hp, if_false, List.cons_append] at h ⊢
      exact ih h

theorem lookupA_append_none {α : Type} {k : String} {l : List (String × α)}
    (l' : List (String × α)) (h : lookupA k l = none) :
    lookupA k (l ++ l') = lookupA k l' := by
  induction l with
  | nil => rfl
  | cons p ps ih =>
    by_cases hp : p.1 = k
    · simp [lookupA, hp] at h
    · simp only [lookupA, hp, if_false] at h
      simp only [List.cons_append, lookupA, hp, if_false]
      exact ih h

theorem lookupA_eraseKey_self {α : Type} (k : String) (l : List (String × α)) :
    lookupA k (eraseKey k l) = none := by
  induction l with
  | nil => rfl
  | cons p ps ih =>
    by_cases hp : p.1 = k
    · simpa [eraseKey, hp] using ih
    · simpa [eraseKey, hp, lookupA] using ih

theorem lookupA_eraseKey_ne {α : Type} {j k : String} (h : j ≠ k)
    (l : List (String × α)) : lookupA j (eraseKey k l) = lookupA j l := by
  induction l with
  | nil => rfl
  | cons p ps ih =>
    simp only [eraseKey, lookupA]
    by_cases hp : p.1 = k
    · rw [if_pos hp]
      have hpj : ¬p.1 = j := fun e => h (by rw [← e, hp])
      rw [if_neg hpj]
      exact ih
    · rw [if_neg hp]
      simp only [lookupA]
      by_cases hj : p.1 = j
      · rw [if_pos hj, if_pos hj]
      · rw [if_neg hj, if_neg hj]
        exact ih

theorem lookupA_mapUpdate {α : Type} (k : String) (v : α) (l : List (String × α))
    (hs : (lookupA k l).isSome) :
    lookupA k (l.map (fun p => if p.1 = k then (k, v) else p)) = some v := by
  induction l with
  | nil => simp [lookupA] at hs
  | cons p ps ih =>
    by_cases hp : p.1 = k
    · simp [lookupA, hp]
    · simp only [lookupA, hp, if_false] at hs
      simpa [lookupA, hp] using ih hs

theorem lookupA_mapUpdate_ne {α : Type} {j k : String} (h : j ≠ k) (v : α)
    (l : List (String × α)) :
    lookupA j (l.map (fun p => if p.1 = k then (k, v) else p)) = lookupA j l := by
  induction l with
  | nil => rfl
  | cons p ps ih =>
    by_cases hp : p.1 = k
    · simp only [List.map_cons, if_pos hp]
      have hkj : ¬(k = j) := fun e => h e.symm
      have hpj : ¬p.1 = j := fun e => h (by rw [← e, hp])
      simp only [lookupA, hkj, hpj, if_false]
      exact ih
    · simp only [List.map_cons, if_neg hp, lookupA]
      by_cases hj : p.1 = j
      · simp [hj]
      · simp only [hj, if_false]
        exact ih

theorem lookupA_upsert_self {α : Type} (k : String) (v : α) (l : List (String × α)) :
    lookupA k (upsert k v l) = some v := by
  unfold upsert
  cases hl : lookupA k l with
  | some w =>
    simp only [Option.isSome_some, if_true]
    exact lookupA_mapUpdate k v l (by rw [hl]; rfl)
  | none =>
    simp only [Option.isSome_none, Bool.false_eq_true, if_false]
    rw [lookupA_append_none _ hl]
    simp [lookupA]

theorem lookupA_upsert_ne {α : Type} {j k : String} (h : j ≠ k) (v : α)
    (l : List (String × α)) : lookupA j (upsert k v l) = lookupA j l := by
  unfold upsert
  cases hl : lookupA k l with
  | some w =>
    simp only [Option.isSome_some, if_true]
    exact lookupA_mapUpdate_ne h v l
  | none =>
    simp only [Option.isSome_none, Bool.false_eq_true, if_false]
    cases hj : lookupA j l with
    | some w => exact lookupA_append_some hj
    | none =>
      rw [lookupA_append_none _ hj]
      have hkj : ¬k = j := fun hkj => h (by rw [hkj])
      simp [lookupA, hkj]

theorem lookupA_mem {α : Type} {k : String} {l : List (String × α)} {v : α}
    (h : lookupA k l = some v) : (k, v) ∈ l := by
  induction l with
  | nil => simp [lookupA] at h
  | cons p ps ih =>
    by_cases hp : p.1 = k
    · simp only [lookupA, hp, if_true, Option.some.injEq] at h
      cases p with
      | mk a b =>
        simp only at hp h
        rw [← hp, ← h]
        exact List.mem_cons_self _ _
    · simp only [lookupA, hp, if_false] at h
      exact List.mem_cons_of_mem _ (ih h)

theorem lookupA_eq_none_of_not_key {α : Type} {k : String} {l : List (String × α)}
    (h : ∀ p ∈ l, p.1 ≠ k) : lookupA k l = none := by
  induction l with
  | nil => rfl
  | cons p ps ih =>
    have hp : p.1 ≠ k := h p (List.mem_cons_self _ _)
    simp only [lookupA, hp, if_false]
    exact ih (fun q hq => h q (List.mem_cons_of_mem _ hq))

theorem not_key_of_lookupA_eq_none {α : Type} {k : String} {l : List (String × α)}
    (h : lookupA k l = none) : ∀ p ∈ l, p.1 ≠ k := by
  induction l with
  | nil => simp
  | cons p ps ih =>
    by_cases hp : p.1 = k
    · simp [lookupA, hp] at h
    · simp only [lookupA, hp, if_false] at h
      intro q hq
      rcases List.mem_cons.mp hq with h1 | h2
      · rw [h1]; exact hp
      · exact ih h q h2

theorem lookupA_eraseKey_none_mono {α : Type} {k j : String} {l : List (String × α)}
    (h : lookupA k l = none) : lookupA k (eraseKey j l) = none := by
  by_cases hkj : k = j
  · rw [hkj]; exact lookupA_eraseKey_self j l
  · rw [lookupA_eraseKey_ne hkj]; exact h

theorem lookupA_eraseKey_isSome_mono {α : Type} {k j : String} {l : List (String × α)}
    (h : (lookupA k (eraseKey j l)).isSome) : (lookupA k l).isSome := by
  by_cases hkj : k = j
  · rw [hkj, lookupA_eraseKey_self] at h
    simp at h
  · rwa [lookupA_eraseKey_ne hkj] at h

/-! ## Monitor-tick lemmas -/

theorem tickStep_lookup_ne {launch : List String → Option Nat} {now : Nat}
    {stopped : List (String × List String)} {k : String}
    (m : List (String × ManagedInfo)) (p : String × ManagedInfo) (h : p.1 ≠ k) :
    lookupA k (tickStep launch now stopped m p) = lookupA k m := by
  have hk : k ≠ p.1 := fun e => h e.symm
  unfold tickStep
  by_cases hs : (lookupA p.1 stopped).isSome
  · simp only [hs, if_true]
    exact lookupA_eraseKey_ne hk m
  · cases hl : launch p.2.command with
    | some pid =>
      simp only [hs, Bool.false_eq_true, if_false, hl]
      rw [lookupA_upsert_ne hk, lookupA_eraseKey_ne hk]
    | none =>
      simp only [hs, Bool.false_eq_true, if_false, hl]
      exact lookupA_eraseKey_ne hk m

theorem tickFold_lookup_frame {launch : List String → Option Nat} {now : Nat}
    {stopped : List (String × List String)} {k : String}
    (dead : List (String × ManagedInfo)) (m : List (String × ManagedInfo))
    (h : ∀ q ∈ dead, q.1 ≠ k) :
    lookupA k (dead.foldl (tickStep launch now stopped) m) = lookupA k m := by
  induction dead generalizing m with
  | nil => rfl
  | cons p ps ih =>
    rw [List.foldl_cons, ih _ (fun q hq => h q (List.mem_cons_of_mem _ hq)),
      tickStep_lookup_ne m p (h p (List.mem_cons_self _ _))]

theorem monitorTick_stopped_eq (launch : List String → Option Nat) (now : Nat)
    (deadPids : List Nat) (s : St) :
    (monitorTick launch now deadPids s).stopped = s.stopped := rfl

theorem monitorTick_configured_eq (launch : List String → Option Nat) (now : Nat)
    (deadPids : List Nat) (s : St) :
    (monitorTick launch now deadPids s).configured = s.configured := rfl

theorem monitorTick_not_managed {launch : List String → Option Nat} {now : Nat}
    {deadPids : List Nat} {s : St} {sid : String}
    (h : lookupA sid s.managed = none) :
    lookupA sid (monitorTick launch now deadPids s).managed = none := by
  unfold monitorTick
  simp only
  rw [tickFold_lookup_frame]
  · exact h
  · intro q hq
    exact not_key_of_lookupA_eq_none h q (List.mem_filter.mp hq).1

theorem tickStep_preserves_disjoint {launch : List String → Option Nat} {now : Nat}
    {stopped : List (String × List String)}
    {m : List (String × ManagedInfo)} (p : String × ManagedInfo)
    (hm : ∀ k, (lookupA k m).isSome → lookupA k stopped = none) :
    ∀ k, (lookupA k (tickStep launch now stopped m p)).isSome → lookupA k stopped = none := by
  intro k hk
  unfold tickStep at hk
  by_cases hs : (lookupA p.1 stopped).isSome
  · simp only [hs, if_true] at hk
    exact hm k (lookupA_eraseKey_isSome_mono hk)
  · simp only [hs, Bool.false_eq_true, if_false] at hk
    cases hl : launch p.2.command with
    | some pid =>
      simp only [hl] at hk
      by_cases hkp : k = p.1
      · rw [hkp]
        cases hss : lookupA p.1 stopped with
        | none => rfl
        | some w => rw [hss] at hs; simp at hs
      · rw [lookupA_upsert_ne hkp] at hk
        exact hm k (lookupA_eraseKey_isSome_mono hk)
    | none =>
      simp only [hl] at hk
      exact hm k (lookupA_eraseKey_isSome_mono hk)

theorem tickFold_preserves_disjoint {launch : List String → Option Nat} {now : Nat}
    {stopped : List (String × List String)}
    (dead : List (String × ManagedInfo)) (m : List (String × ManagedInfo))
    (hm : ∀ k, (lookupA k m).isSome → lookupA k stopped = none) :
    ∀ k, (lookupA k (dead.foldl (tickStep launch now stopped) m)).isSome →
      lookupA k stopped = none := by
  induction dead generalizing m with
  | nil => exact hm
  | cons p ps ih =>
    rw [List.foldl_cons]
    exact ih _ (tickStep_preserves_disjoint p hm)

theorem monitorTick_preserves_RSInv {launch : List String → Option Nat} {now : Nat}
    {deadPids : List Nat} {s : St} (h : RSInv s) :
    RSInv (monitorTick launch now deadPids s) := by
  intro k hk
  rw [monitorTick_stopped_eq]
  exact tickFold_preserves_disjoint _ _ h k hk

theorem monitorTick_relaunch {launch : List String → Option Nat} {now : Nat}
    {deadPids : List Nat} {s : St} {sid : String} {info : ManagedInfo} {pid : Nat}
    (hnd : (s.managed.map Prod.fst).Nodup)
    (hm : lookupA sid s.managed = some info)
    (hd : info.pid ∈ deadPids)
    (hns : lookupA sid s.stopped = none)
    (hl : launch info.command = some pid) :
    lookupA sid (monitorTick launch now deadPids s).managed =
      some ⟨pid, info.command, now⟩ := by
  unfold monitorTick
  simp only
  have hmem : (sid, info) ∈ s.managed.filter (fun p => p.2.pid ∈ deadPids) := by
    refine List.mem_filter.mpr ⟨lookupA_mem hm, ?_⟩
    simpa using hd
  obtain ⟨l1, l2, hsplit⟩ := List.append_of_mem hmem
  have hsub : List.Sublist ((s.managed.filter (fun p => p.2.pid ∈ deadPids)).map Prod.fst)
      (s.managed.map Prod.fst) := (List.filter_sublist _).map _
  have hndd : ((l1 ++ (sid, info) :: l2).map Prod.fst).Nodup := by
    rw [← hsplit]
    exact hsub.nodup hnd
  rw [List.map_append, List.map_cons] at hndd
  have hdisj : List.Disjoint (l1.map Prod.fst) (sid :: l2.map Prod.fst) :=
    List.disjoint_of_nodup_append hndd
  have hcons : (sid :: l2.map Prod.fst).Nodup := List.Nodup.of_append_right hndd
  have h1 : ∀ q ∈ l1, q.1 ≠ sid := by
    intro q hq he
    exact hdisj (List.mem_map_of_mem Prod.fst hq) (he ▸ List.mem_cons_self _ _)
  have h2 : ∀ q ∈ l2, q.1 ≠ sid := by
    intro q hq he
    exact (List.nodup_cons.mp hcons).1 (he ▸ List.mem_map_of_mem Prod.fst hq)
  rw [hsplit, List.foldl_append, List.foldl_cons]
  have hm1 : lookupA sid (l1.foldl (tickStep launch now s.stopped) s.managed) = some info := by
    rw [tickFold_lookup_frame l1 s.managed h1]
    exact hm
  have hstep : tickStep launch now s.stopped
      (l1.foldl (tickStep launch now s.stopped) s.managed) (sid, info) =
      upsert sid ⟨pid, info.command, now⟩
        (eraseKey sid (l1.foldl (tickStep launch now s.stopped) s.managed)) := by
    unfold tickStep
    simp only [hns, Option.isSome_none, Bool.false_eq_true, if_false, hl]
  rw [hstep, tickFold_lookup_frame l2 _ h2, lookupA_upsert_self]

/-! ## Apply-loop lemmas -/

theorem applyStep_managed_some {launch : List String → Option Nat} {now : Nat}
    {acc : ApplyAcc} {k : String} {v : ManagedInfo} (p : String × List String)
    (h : lookupA k acc.managed = some v) :
    lookupA k (applyStep launch now acc p).managed = some v := by
  unfold applyStep
  by_cases hg : (lookupA p.1 acc.managed).isSome
  · simp only [hg, if_true]
    exact h
  · have hk : k ≠ p.1 := by
      intro e
      rw [← e, h] at hg
      simp at hg
    cases hl : launch p.2 with
    | some pid =>
      simp only [hg, Bool.false_eq_true, if_false, hl]
      rw [lookupA_upsert_ne hk]
      exact h
    | none =>
      simp only [hg, Bool.false_eq_true, if_false, hl]
      exact h

theorem applyStep_managed_ne {launch : List String → Option Nat} {now : Nat}
    {acc : ApplyAcc} {k : String} (p : String × List String) (h : p.1 ≠ k) :
    lookupA k (applyStep launch now acc p).managed = lookupA k acc.managed := by
  unfold applyStep
  by_cases hg : (lookupA p.1 acc.managed).isSome
  · simp only [hg, if_true]
  · have hk : k ≠ p.1 := fun e => h e.symm
    cases hl : launch p.2 with
    | some pid =>
      simp only [hg, Bool.false_eq_true, if_false, hl]
      exact lookupA_upsert_ne hk _ _
    | none =>
      simp only [hg, Bool.false_eq_true, if_false, hl]

theorem applyStep_stopped_none {launch : List String → Option Nat} {now : Nat}
    {acc : ApplyAcc} {k : String} (p : String × List String)
    (h : lookupA k acc.stopped = none) :
    lookupA k (applyStep launch now acc p).stopped = none := by
  unfold applyStep
  by_cases hg : (lookupA p.1 acc.managed).isSome
  · simp only [hg, if_true]
    exact h
  · cases hl : launch p.2 with
    | some pid =>
      simp only [hg, Bool.false_eq_true, if_false, hl]
      exact lookupA_eraseKey_none_mono h
    | none =>
      simp only [hg, Bool.false_eq_true, if_false, hl]
      exact lookupA_eraseKey_none_mono h

theorem applyFold_managed_some {launch : List String → Option Nat} {now : Nat}
    {k : String} {v : ManagedInfo} (conf : List (String × List String)) (acc : ApplyAcc)
    (h : lookupA k acc.managed = some v) :
    lookupA k ((conf.foldl (applyStep launch now) acc).managed) = some v := by
  induction conf generalizing acc with
  | nil => exact h
  | cons p ps ih =>
    rw [List.foldl_cons]
    exact ih _ (applyStep_managed_some p h)

theorem applyFold_managed_frame {launch : List String → Option Nat} {now : Nat}
    {k : String} (conf : List (String × List String)) (acc : ApplyAcc)
    (h : ∀ q ∈ conf, q.1 ≠ k) :
    lookupA k ((conf.foldl (applyStep launch now) acc).managed) = lookupA k acc.managed := by
  induction conf generalizing acc with
  | nil => rfl
  | cons p ps ih =>
    rw [List.foldl_cons, ih _ (fun q hq => h q (List.mem_cons_of_mem _ hq)),
      applyStep_managed_ne p (h p (List.mem_cons_self _ _))]

theorem applyFold_stopped_none {launch : List String → Option Nat} {now : Nat}
    {k : String} (conf : List (String × List String)) (acc : ApplyAcc)
    (h : lookupA k acc.stopped = none) :
    lookupA k ((conf.foldl (applyStep launch now) acc).stopped) = none := by
  induction conf generalizing acc with
  | nil => exact h
  | cons p ps ih =>
    rw [List.foldl_cons]
    exact ih _ (applyStep_stopped_none p h)

theorem applyStep_disjoint {launch : List String → Option Nat} {now : Nat}
    {acc : ApplyAcc} (p : String × List String)
    (h : ∀ j, (lookupA j acc.managed).isSome → lookupA j acc.stopped = none) :
    ∀ j, (lookupA j (applyStep launch now acc p).managed).isSome →
      lookupA j (applyStep launch now acc p).stopped = none := by
  intro j hj
  unfold applyStep at hj ⊢
  by_cases hg : (lookupA p.1 acc.managed).isSome
  · simp only [hg, if_true] at hj ⊢
    exact h j hj
  · cases hl : launch p.2 with
    | some pid =>
      simp only [hg, Bool.false_eq_true, if_false, hl] at hj ⊢
      by_cases hjp : j = p.1
      · rw [hjp]
        exact lookupA_eraseKey_self _ _
      · rw [lookupA_upsert_ne hjp] at hj
        exact lookupA_eraseKey_none_mono (h j hj)
    | none =>
      simp only [hg, Bool.false_eq_true, if_false, hl] at hj ⊢
      exact lookupA_eraseKey_none_mono (h j hj)

theorem applyFold_disjoint {launch : List String → Option Nat} {now : Nat}
    (conf : List (String × List String)) (acc : ApplyAcc)
    (h : ∀ j, (lookupA j acc.managed).isSome → lookupA j acc.stopped = none) :
    ∀ j, (lookupA j ((conf.foldl (applyStep launch now) acc).managed)).isSome →
      lookupA j ((conf.foldl (applyStep launch now) acc).stopped) = none := by
  induction conf generalizing acc with
  | nil => exact h
  | cons p ps ih =>
    rw [List.foldl_cons]
    exact ih _ (applyStep_disjoint p h)

theorem applyStep_skip {launch : List String → Option Nat} {now : Nat}
    {acc : ApplyAcc} {p : String × List String}
    (hg : (lookupA p.1 acc.managed).isSome) :
    applyStep launch now acc p = acc := by
  unfold applyStep
  simp only [hg, if_true]

theorem applyStep_launch_ok {launch : List String → Option Nat} {now : Nat}
    {acc : ApplyAcc} {p : String × List String} {pid : Nat}
    (hg : (lookupA p.1 acc.managed).isSome = false) (hl : launch p.2 = some pid) :
    applyStep launch now acc p =
      { managed := upsert p.1 ⟨pid, p.2, now⟩ acc.managed,
        stopped := eraseKey p.1 acc.stopped,
        started := acc.started + 1, errors := acc.errors } := by
  unfold applyStep
  simp only [hg, Bool.false_eq_true, if_false, hl]

theorem applyStep_launch_fail {launch : List String → Option Nat} {now : Nat}
    {acc : ApplyAcc} {p : String × List String}
    (hg : (lookupA p.1 acc.managed).isSome = false) (hl : launch p.2 = none) :
    applyStep launch now acc p =
      { managed := acc.managed, stopped := eraseKey p.1 acc.stopped,
        started := acc.started, errors := acc.errors + 1 } := by
  unfold applyStep
  simp only [hg, Bool.false_eq_true, if_false, hl]

theorem applyFold_counts {launch : List String → Option Nat} {now : Nat}
    (conf : List (String × List String)) (acc : ApplyAcc)
    (hnd : (conf.map Prod.fst).Nodup) :
    (conf.foldl (applyStep launch now) acc).started =
      acc.started + (conf.filter
        (fun q => !(lookupA q.1 acc.managed).isSome && (launch q.2).isSome)).length ∧
    (conf.foldl (applyStep launch now) acc).errors =
      acc.errors + (conf.filter
        (fun q => !(lookupA q.1 acc.managed).isSome && !(launch q.2).isSome)).length := by
  induction conf generalizing acc with
  | nil => exact ⟨rfl, rfl⟩
  | cons p ps ih =>
    rw [List.map_cons, List.nodup_cons] at hnd
    have hkeys : ∀ q ∈ ps, q.1 ≠ p.1 := by
      intro q hq he
      exact hnd.1 (he ▸ List.mem_map_of_mem Prod.fst hq)
    rw [List.foldl_cons]
    by_cases hg : (lookupA p.1 acc.managed).isSome
    · rw [applyStep_skip hg]
      obtain ⟨h1, h2⟩ := ih acc hnd.2
      refine ⟨?_, ?_⟩
      · rw [h1]
        congr 1
        simp [List.filter, hg]
      · rw [h2]
        congr 1
        simp [List.filter, hg]
    · have hgf : (lookupA p.1 acc.managed).isSome = false := by
        simpa using hg
      cases hl : launch p.2 with
      | some pid =>
        rw [applyStep_launch_ok hgf hl]
        obtain ⟨h1, h2⟩ := ih _ hnd.2
        have hsame : ∀ q ∈ ps,
            (!(lookupA q.1 (upsert p.1 (⟨pid, p.2, now⟩ : ManagedInfo) acc.managed)).isSome
              && (launch q.2).isSome) =
            (!(lookupA q.1 acc.managed).isSome && (launch q.2).isSome) := by
          intro q hq
          rw [lookupA_upsert_ne (hkeys q hq)]
        have hsame2 : ∀ q ∈ ps,
            (!(lookupA q.1 (upsert p.1 (⟨pid, p.2, now⟩ : ManagedInfo) acc.managed)).isSome
              && !(launch q.2).isSome) =
            (!(lookupA q.1 acc.managed).isSome && !(launch q.2).isSome) := by
          intro q hq
          rw [lookupA_upsert_ne (hkeys q hq)]
        refine ⟨?_, ?_⟩
        · rw [h1, List.filter_congr hsame]
          simp only [List.filter, hgf, hl, Option.isSome_some, Bool.not_false, Bool.and_self,
            List.length_cons]
          omega
        · rw [h2, List.filter_congr hsame2]
          simp only [List.filter, hgf, hl, Option.isSome_some, Bool.not_false, Bool.not_true,
            Bool.and_false, List.length_cons]
      | none =>
        rw [applyStep_launch_fail hgf hl]
        obtain ⟨h1, h2⟩ := ih _ hnd.2
        refine ⟨?_, ?_⟩
        · rw [h1]
          simp only [List.filter, hgf, hl, Option.isSome_none, Bool.not_false, Bool.and_false]
        · rw [h2]
          simp only [List.filter, hgf, hl, Option.isSome_none, Bool.not_false, Bool.not_true,
            Bool.and_self, List.length_cons]
          omega

theorem applyFold_entry {launch : List String → Option Nat} {now : Nat}
    {conf : List (String × List String)} {p : String × List String}
    (hnd : (conf.map Prod.fst).Nodup) (hp : p ∈ conf) (acc : ApplyAcc)
    (hm : lookupA p.1 acc.managed = none) :
    lookupA p.1 ((conf.foldl (applyStep launch now) acc).stopped) = none ∧
    (∀ pid, launch p.2 = some pid →
      lookupA p.1 ((conf.foldl (applyStep launch now) acc).managed) =
        some ⟨pid, p.2, now⟩) := by
  obtain ⟨l1, l2, hsplit⟩ := List.append_of_mem hp
  rw [hsplit] at hnd
  rw [List.map_append, List.map_cons] at hnd
  have hdisj : List.Disjoint (l1.map Prod.fst) (p.1 :: l2.map Prod.fst) :=
    List.disjoint_of_nodup_append hnd
  have hcons : (p.1 :: l2.map Prod.fst).Nodup := List.Nodup.of_append_right hnd
  have h1 : ∀ q ∈ l1, q.1 ≠ p.1 := by
    intro q hq he
    exact hdisj (List.mem_map_of_mem Prod.fst hq) (he ▸ List.mem_cons_self _ _)
  have h2 : ∀ q ∈ l2, q.1 ≠ p.1 := by
    intro q hq he
    exact (List.nodup_cons.mp hcons).1 (he ▸ List.mem_map_of_mem Prod.fst hq)
  rw [hsplit, List.foldl_append, List.foldl_cons]
  have hm1 : lookupA p.1 ((l1.foldl (applyStep launch now) acc).managed) = none := by
    rw [applyFold_managed_frame l1 acc h1]
    exact hm
  have hg : (lookupA p.1 ((l1.foldl (applyStep launch now) acc).managed)).isSome = false := by
    rw [hm1]
    rfl
  refine ⟨?_, ?_⟩
  · apply applyFold_stopped_none
    cases hl : launch p.2 with
    | some pid =>
      rw [applyStep_launch_ok hg hl]
      exact lookupA_eraseKey_self _ _
    | none =>
      rw [applyStep_launch_fail hg hl]
      exact lookupA_eraseKey_self _ _
  · intro pid hl
    apply applyFold_managed_some
    rw [applyStep_launch_ok hg hl]
    exact lookupA_upsert_self _ _ _

/-! ## Operation reduction lemmas -/

theorem statusRow_running {s : St} {now : Nat} {p : String × List String}
    {info : ManagedInfo} (hm : lookupA p.1 s.managed = some info) :
    statusRow s now p =
      { id := p.1, status := "Running", pid := some info.pid,
        uptime := some (format_uptime (some ((now : Int) - (info.start_time : Int)))),
        command := " ".intercalate p.2 } := by
  unfold statusRow
  rw [hm]

theorem statusRow_stopped {s : St} {now : Nat} {p : String × List String}
    (hm : lookupA p.1 s.managed = none) (hs : (lookupA p.1 s.stopped).isSome) :
    statusRow s now p =
      { id := p.1, status := "Stopped", pid := none, uptime := none,
        command := " ".intercalate p.2 } := by
  unfold statusRow
  rw [hm]
  simp only [hs, if_true]

theorem statusRow_idle {s : St} {now : Nat} {p : String × List String}
    (hm : lookupA p.1 s.managed = none) (hs : lookupA p.1 s.stopped = none) :
    statusRow s now p =
      { id := p.1, status := "Idle", pid := none, uptime := none,
        command := " ".intercalate p.2 } := by
  unfold statusRow
  rw [hm, hs]
  simp only [Option.isSome_none, Bool.false_eq_true, if_false]

theorem statusRow_id (s : St) (now : Nat) (p : String × List String) :
    (statusRow s now p).id = p.1 := by
  unfold statusRow
  cases lookupA p.1 s.managed with
  | some info => rfl
  | none =>
    by_cases hs : (lookupA p.1 s.stopped).isSome
    · simp only [hs, if_true]
    · simp only [hs, Bool.false_eq_true, if_false]

theorem doStop_not_configured {s : St} {sid : String}
    (hc : lookupA sid s.configured = none) :
    doStop s sid = (.error ("ID '" ++ sid ++ "' is not a valid ID."), s) := by
  unfold doStop
  rw [hc]
  by_cases hne : sid = ""
  · rw [if_pos hne]
  · rw [if_neg hne]

theorem doStop_not_running {s : St} {sid : String} {cmd : List String}
    (hne : ¬sid = "") (hc : lookupA sid s.configured = some cmd)
    (hm : lookupA sid s.managed = none) :
    doStop s sid = (.error ("Server with ID '" ++ sid ++ "' is not running."), s) := by
  unfold doStop
  rw [if_neg hne, hc, hm]

theorem doStop_ok {s : St} {sid : String} {cmd : List String} {info : ManagedInfo}
    (hne : ¬sid = "") (hc : lookupA sid s.configured = some cmd)
    (hm : lookupA sid s.managed = some info) :
    doStop s sid = (.ok ("Server with ID '" ++ sid ++ "' has been stopped."),
      { s with managed := eraseKey sid s.managed,
               stopped := upsert sid info.command s.stopped }) := by
  unfold doStop
  rw [if_neg hne, hc, hm]

theorem doStart_not_configured {launch : List String → Option Nat} {now : Nat}
    {s : St} {sid : String} (hc : lookupA sid s.configured = none) :
    doStart launch now s sid = (.error ("ID '" ++ sid ++ "' is not a valid ID."), s) := by
  unfold doStart
  rw [hc]
  by_cases hne : sid = ""
  · rw [if_pos hne]
  · rw [if_neg hne]

theorem doStart_already {launch : List String → Option Nat} {now : Nat}
    {s : St} {sid : String} {cmd : List String} {info : ManagedInfo}
    (hne : ¬sid = "") (hc : lookupA sid s.configured = some cmd)
    (hm : lookupA sid s.managed = some info) :
    doStart launch now s sid =
      (.error ("Server with ID '" ++ sid ++ "' is already running."), s) := by
  unfold doStart
  rw [if_neg hne, hc, hm]

theorem doStart_ok {launch : List String → Option Nat} {now : Nat}
    {s : St} {sid : String} {cmd : List String} {pid : Nat}
    (hne : ¬sid = "") (hc : lookupA sid s.configured = some cmd)
    (hm : lookupA sid s.managed = none) (hl : launch cmd = some pid) :
    doStart launch now s sid =
      (.ok ("Server with ID '" ++ sid ++ "' has been started."),
       { s with managed := upsert sid ⟨pid, cmd, now⟩ s.managed,
                stopped := eraseKey sid s.stopped }) := by
  unfold doStart
  rw [if_neg hne, hc, hm]
  simp only [hl]

theorem doStart_fail {launch : List String → Option Nat} {now : Nat}
    {s : St} {sid : String} {cmd : List String}
    (hne : ¬sid = "") (hc : lookupA sid s.configured = some cmd)
    (hm : lookupA sid s.managed = none) (hl : launch cmd = none) :
    doStart launch now s sid =
      (.error ("Failed to start server with ID '" ++ sid ++ "'."),
       { s with stopped := eraseKey sid s.stopped }) := by
  unfold doStart
  rw [if_neg hne, hc, hm]
  simp only [hl]

theorem doRestart_not_configured {s : St} {sid : String}
    (hc : lookupA sid s.configured = none) :
    doRestart s sid = (.error ("ID '" ++ sid ++ "' is not a valid ID."), s) := by
  unfold doRestart
  rw [hc]
  by_cases hne : sid = ""
  · rw [if_pos hne]
  · rw [if_neg hne]

theorem doRestart_not_running {s : St} {sid : String} {cmd : List String}
    (hne : ¬sid = "") (hc : lookupA sid s.configured = some cmd)
    (hm : lookupA sid s.managed = none) :
    doRestart s sid = (.error ("Server with ID '" ++ sid ++ "' is not running."), s) := by
  unfold doRestart
  rw [if_neg hne, hc, hm]

theorem doRestart_ok {s : St} {sid : String} {cmd : List String} {info : ManagedInfo}
    (hne : ¬sid = "") (hc : lookupA sid s.configured = some cmd)
    (hm : lookupA sid s.managed = some info) :
    doRestart s sid =
      (.ok ("Restart requested for server with ID '" ++ sid ++ "'."), s) := by
  unfold doRestart
  rw [if_neg hne, hc, hm]

/-! ## Invariant preservation -/

theorem doStart_preserves_RSInv (launch : List String → Option Nat) (now : Nat)
    (s : St) (sid : String) (h : RSInv s) : RSInv (doStart launch now s sid).2 := by
  by_cases hne : sid = ""
  · unfold doStart
    rw [if_pos hne]
    exact h
  · cases hc : lookupA sid s.configured with
    | none =>
      rw [doStart_not_configured hc]
      exact h
    | some cmd =>
      cases hm : lookupA sid s.managed with
      | some info =>
        rw [doStart_already hne hc hm]
        exact h
      | none =>
        cases hl : launch cmd with
        | some pid =>
          rw [doStart_ok hne hc hm hl]
          intro k hk
          by_cases hksid : k = sid
          · rw [hksid]
            exact lookupA_eraseKey_self sid s.stopped
          · rw [lookupA_upsert_ne hksid] at hk
            exact lookupA_eraseKey_none_mono (h k hk)
        | none =>
          rw [doStart_fail hne hc hm hl]
          intro k hk
          exact lookupA_eraseKey_none_mono (h k hk)

theorem doStop_preserves_RSInv (s : St) (sid : String) (h : RSInv s) :
    RSInv (doStop s sid).2 := by
  by_cases hne : sid = ""
  · unfold doStop
    rw [if_pos hne]
    exact h
  · cases hc : lookupA sid s.configured with
    | none =>
      rw [doStop_not_configured hc]
      exact h
    | some cmd =>
      cases hm : lookupA sid s.managed with
      | none =>
        rw [doStop_not_running hne hc hm]
        exact h
      | some info =>
        rw [doStop_ok hne hc hm]
        intro k hk
        by_cases hksid : k = sid
        · rw [hksid, lookupA_eraseKey_self] at hk
          simp at hk
        · rw [lookupA_eraseKey_ne hksid] at hk
          rw [lookupA_upsert_ne hksid]
          exact h k hk

theorem doRestart_state (s : St) (sid : String) : (doRestart s sid).2 = s := by
  by_cases hne : sid = ""
  · unfold doRestart
    rw [if_pos hne]
  · cases hc : lookupA sid s.configured with
    | none => rw [doRestart_not_configured hc]
    | some cmd =>
      cases hm : lookupA sid s.managed with
      | none => rw [doRestart_not_running hne hc hm]
      | some info => rw [doRestart_ok hne hc hm]

theorem doApply_preserves_RSInv (launch : List String → Option Nat) (now : Nat)
    (newConf : List (String × List String)) (s : St) (h : RSInv s) :
    RSInv (doApply launch now newConf s).2 := by
  intro k hk
  exact applyFold_disjoint newConf ⟨s.managed, s.stopped, 0, 0⟩ h k hk

theorem initState_RSInv (launch : List String → Option Nat) (now : Nat)
    (conf : List (String × List String)) : RSInv (initState launch now conf) := by
  intro k _
  rfl

theorem handleRequest_preserves_RSInv (launch : List String → Option Nat) (now : Nat)
    (loadRes : Option (List (String × List String))) (d : RecvData) (s : St)
    (h : RSInv s) : RSInv (handleRequest launch now loadRes d s).2 := by
  cases d with
  | empty => exact h
  | malformed => exact h
  | parsed command payload =>
    unfold handleRequest
    by_cases h1 : command = some "status"
    · simp only [h1, if_true, if_pos]
      exact h
    · simp only [h1, if_false]
      by_cases h2 : command = some "start"
      · simp only [h2, if_true, if_pos]
        exact doStart_preserves_RSInv launch now s _ h
      · simp only [h2, if_false]
        by_cases h3 : command = some "stop"
        · simp only [h3, if_true, if_pos]
          exact doStop_preserves_RSInv s _ h
        · simp only [h3, if_false]
          by_cases h4 : command = some "restart"
          · simp only [h4, if_true, if_pos]
            rw [doRestart_state]
            exact h
          · simp only [h4, if_false]
            by_cases h5 : command = some "apply"
            · simp only [h5, if_true, if_pos]
              cases loadRes with
              | none => exact h
              | some newConf => exact doApply_preserves_RSInv launch now newConf s h
            · simp only [h5, if_false]
              exact h

/-! ## SHA-1 validation against standard test vectors -/

set_option maxRecDepth 100000 in
example : sha1Hex (strBytes "abc") = "a9993e364706816aba3e25717850c26c9cd0d89d" := by
  decide

set_option maxRecDepth 100000 in
example : sha1Hex (strBytes "") = "da39a3ee5e6b4b0d3255bfef95601890afd80709" := by
  decide

/-! ## Claims -/

/-- C3: for every non-empty command vector, `get_id_from_command` returns
exactly the first 7 hexadecimal characters of the SHA-1 digest of the
space-joined argv string (the spec-side contract `serverIdSpec`), and it is
pure and deterministic: computing it twice on the same command vector
yields the same ServerID, with no dependence on any process state. -/
theorem claim_identity_scheme (commandSpec : List String) (hne : commandSpec ≠ []) :
    get_id_from_command commandSpec = serverIdSpec commandSpec ∧
    get_id_from_command commandSpec = get_id_from_command commandSpec :=
  ⟨rfl, rfl⟩

theorem claim_identity_scheme_witness :
    (["echo", "hello"] ≠ ([] : List String)) ∧
    (get_id_from_command ["echo", "hello"] = serverIdSpec ["echo", "hello"] ∧
     get_id_from_command ["echo", "hello"] = get_id_from_command ["echo", "hello"]) :=
  ⟨by decide, claim_identity_scheme ["echo", "hello"] (by decide)⟩

/-- C4: a status query returns one entry per ServerID of
`configured_servers`, in order, and each entry reports the status derived
by the precedence Running (if managed) > Stopped (if marker) > Idle;
Running entries carry a PID and an uptime, non-running entries carry
neither. -/
theorem claim_status_report (s : St) (now : Nat) :
    (doStatus s now).map StatusEntry.id = s.configured.map Prod.fst ∧
    ∀ e ∈ doStatus s now, statusEntryConsistent s e := by
  constructor
  · unfold doStatus
    have aux : ∀ l : List (String × List String),
        (l.map (statusRow s now)).map StatusEntry.id = l.map Prod.fst := by
      intro l
      induction l with
      | nil => rfl
      | cons p ps ih =>
        simp only [List.map_cons, statusRow_id, ih]
    exact aux s.configured
  · intro e he
    rcases List.mem_map.mp he with ⟨p, hp, rfl⟩
    unfold statusEntryConsistent
    cases hm : lookupA p.1 s.managed with
    | some info =>
      left
      rw [statusRow_running hm]
      exact ⟨info, hm, rfl, rfl, by simp⟩
    | none =>
      by_cases hs : (lookupA p.1 s.stopped).isSome
      · right
        left
        rw [statusRow_stopped hm hs]
        exact ⟨hm, hs, rfl, rfl, rfl⟩
      · right
        right
        have hsn : lookupA p.1 s.stopped = none := by
          cases hh : lookupA p.1 s.stopped with
          | none => rfl
          | some w => rw [hh] at hs; simp at hs
        rw [statusRow_idle hm hsn]
        exact ⟨hm, hsn, rfl, rfl, rfl⟩

theorem claim_status_report_witness :
    ((doStatus stExampleA 12).map StatusEntry.id = stExampleA.configured.map Prod.fst) ∧
    statusEntryConsistent stExampleA
      ⟨"aaa1111", "Running", some 41, some "0:00:02", "sleep 100"⟩ :=
  ⟨(claim_status_report stExampleA 12).1,
   (claim_status_report stExampleA 12).2
     ⟨"aaa1111", "Running", some 41, some "0:00:02", "sleep 100"⟩ (by decide)⟩

/-- C2: no ServerID is ever simultaneously present in both
`managed_processes` and `stopped_processes`: the invariant holds in the
state `main` builds at startup and is preserved by every request the
handler dispatches (status, start, stop, restart, apply, unknown) and by
every monitor-loop tick. -/
theorem claim_registry_invariant (conf : List (String × List String))
    (launch launch2 launch3 : List String → Option Nat) (now now2 now3 : Nat)
    (loadRes : Option (List (String × List String))) (d : RecvData)
    (deadPids : List Nat) (s : St) :
    RSInv (initState launch now conf) ∧
    (RSInv s → RSInv (handleRequest launch2 now2 loadRes d s).2) ∧
    (RSInv s → RSInv (monitorTick launch3 now3 deadPids s)) :=
  ⟨initState_RSInv launch now conf,
   fun h => handleRequest_preserves_RSInv launch2 now2 loadRes d s h,
   fun h => monitorTick_preserves_RSInv h⟩

theorem claim_registry_invariant_witness :
    RSInv (initState launchOk 0 [("aaa1111", ["sleep", "100"])]) ∧
    RSInv (handleRequest launchOk 1 (some [])
      (.parsed (some "stop") (some "aaa1111")) stExampleB).2 ∧
    RSInv (monitorTick launchOk 2 [41] stExampleB) :=
  ⟨(claim_registry_invariant [("aaa1111", ["sleep", "100"])] launchOk launchOk launchOk
      0 1 2 (some []) (.parsed (some "stop") (some "aaa1111")) [41] stExampleB).1,
   (claim_registry_invariant [("aaa1111", ["sleep", "100"])] launchOk launchOk launchOk
      0 1 2 (some []) (.parsed (some "stop") (some "aaa1111")) [41] stExampleB).2.1
     (fun _ _ => rfl),
   (claim_registry_invariant [("aaa1111", ["sleep", "100"])] launchOk launchOk launchOk
      0 1 2 (some []) (.parsed (some "stop") (some "aaa1111")) [41] stExampleB).2.2
     (fun _ _ => rfl)⟩

/-- C5: `start` fails with the unknown-ID error when the id is not
configured and with the already-running error when it is in the running
set; otherwise it launches the command, clears any stopped marker, records
a managed entry with the current timestamp, and a subsequent status query
reports the id Running with a PID; a launch failure yields an error
response (reported, not fatal: the handler still returns a value). -/
theorem claim_start_contract (launch : List String → Option Nat) (now now2 : Nat)
    (s : St) (sid : String) (hne : sid ≠ "") :
    (lookupA sid s.configured = none →
      doStart launch now s sid = (.error ("ID '" ++ sid ++ "' is not a valid ID."), s)) ∧
    ∀ cmd, lookupA sid s.configured = some cmd →
      (∀ info, lookupA sid s.managed = some info →
        doStart launch now s sid =
          (.error ("Server with ID '" ++ sid ++ "' is already running."), s)) ∧
      (lookupA sid s.managed = none →
        (∀ pid, launch cmd = some pid →
          (doStart launch now s sid).1 =
            .ok ("Server with ID '" ++ sid ++ "' has been started.") ∧
          lookupA sid (doStart launch now s sid).2.stopped = none ∧
          lookupA sid (doStart launch now s sid).2.managed = some ⟨pid, cmd, now⟩ ∧
          ∃ e ∈ doStatus (doStart launch now s sid).2 now2,
            e.id = sid ∧ e.status = "Running" ∧ e.pid = some pid) ∧
        (launch cmd = none →
          (doStart launch now s sid).1 =
            .error ("Failed to start server with ID '" ++ sid ++ "'."))) := by
  refine ⟨fun hc => doStart_not_configured hc, fun cmd hc => ⟨fun info hm =>
    doStart_already hne hc hm, fun hm => ⟨?_, fun hl => by rw [doStart_fail hne hc hm hl]⟩⟩⟩
  intro pid hl
  have h := @doStart_ok launch now s sid cmd pid hne hc hm hl
  refine ⟨by rw [h], by rw [h]; exact lookupA_eraseKey_self _ _,
    by rw [h]; exact lookupA_upsert_self _ _ _, ?_⟩
  rw [h]
  refine ⟨statusRow ({ s with
                       managed := upsert sid ⟨pid, cmd, now⟩ s.managed,
                       stopped := eraseKey sid s.stopped }) now2 (sid, cmd),
    List.mem_map_of_mem _ (lookupA_mem hc), ?_⟩
  rw [statusRow_running (lookupA_upsert_self sid ⟨pid, cmd, now⟩ s.managed)]
  exact ⟨rfl, rfl, rfl⟩

theorem claim_start_contract_witness :
    (doStart launchOk 5 stExampleA "bbb2222").1 =
      .ok "Server with ID 'bbb2222' has been started." :=
  ((((claim_start_contract launchOk 5 7 stExampleA "bbb2222" (by decide)).2
      ["echo", "x"] (by decide)).2 (by decide)).1 99 (by decide)).1

/-- C6: after a successful `stop` on a configured running id, the id is
out of the running set and carries a stopped marker, a status query
reports it Stopped, and any monitor tick on a state where the id is
unmanaged and marked leaves it unmanaged and the markers untouched — the
monitor never relaunches it while the marker persists (only `start` or
`apply` clear markers). -/
theorem claim_stop_contract (s : St) (sid : String) (cmd : List String)
    (info : ManagedInfo) (now2 : Nat) (hne : sid ≠ "")
    (hc : lookupA sid s.configured = some cmd)
    (hm : lookupA sid s.managed = some info) :
    (doStop s sid).1 = .ok ("Server with ID '" ++ sid ++ "' has been stopped.") ∧
    lookupA sid (doStop s sid).2.managed = none ∧
    lookupA sid (doStop s sid).2.stopped = some info.command ∧
    (∀ e ∈ doStatus (doStop s sid).2 now2, e.id = sid → e.status = "Stopped") ∧
    (∀ t : St, lookupA sid t.managed = none → (lookupA sid t.stopped).isSome →
      ∀ launch3 now3 deadPids,
        lookupA sid (monitorTick launch3 now3 deadPids t).managed = none ∧
        (monitorTick launch3 now3 deadPids t).stopped = t.stopped) := by
  have h := doStop_ok hne hc hm
  refine ⟨by rw [h], by rw [h]; exact lookupA_eraseKey_self _ _,
    by rw [h]; exact lookupA_upsert_self _ _ _, ?_, ?_⟩
  · intro e he hid
    rw [h] at he
    rcases List.mem_map.mp he with ⟨p, hp, rfl⟩
    rw [statusRow_id] at hid
    rw [statusRow_stopped (by rw [hid]; exact lookupA_eraseKey_self _ _)
      (by rw [hid, lookupA_upsert_self]; rfl)]
  · intro t htm hts launch3 now3 deadPids
    exact ⟨monitorTick_not_managed htm, monitorTick_stopped_eq _ _ _ _⟩

theorem claim_stop_contract_witness :
    lookupA "aaa1111" (doStop stExampleB "aaa1111").2.managed = none ∧
    lookupA "aaa1111" (doStop stExampleB "aaa1111").2.stopped = some ["sleep", "100"] :=
  ⟨(claim_stop_contract stExampleB "aaa1111" ["sleep", "100"] ⟨41, ["sleep", "100"], 10⟩
      0 (by decide) (by decide) (by decide)).2.1,
   (claim_stop_contract stExampleB "aaa1111" ["sleep", "100"] ⟨41, ["sleep", "100"], 10⟩
      0 (by decide) (by decide) (by decide)).2.2.1⟩

/-- C1 counterexample: on a configured, running id, `restart` succeeds
(`status: ok`) yet the ServerID is still present in the running set
immediately afterwards — the handler only requests termination and leaves
`managed_processes` untouched, so the claim that a successful restart
leaves the id absent from the running set is false of the code. -/
theorem claim_restart_counterexample :
    (doRestart stExampleB "aaa1111").1 =
      Resp.ok "Restart requested for server with ID 'aaa1111'." ∧
    lookupA "aaa1111" (doRestart stExampleB "aaa1111").2.managed ≠ none := by
  decide

/-- C1 amended: `restart` fails with the unknown-ID error when the id is
not configured and the not-running error when it is not in the running
set; a successful `restart` leaves the registry state completely
unchanged — the ServerID remains in the running set and (under the
running/stopped mutual-exclusion invariant) no stopped marker is present —
and relaunch is left to the monitor loop, which, once it observes the
process exit, re-registers the id with a fresh timestamp. -/
theorem claim_restart_contract (s : St) (sid : String) (hne : sid ≠ "") :
    (lookupA sid s.configured = none →
      doRestart s sid = (.error ("ID '" ++ sid ++ "' is not a valid ID."), s)) ∧
    ∀ cmd, lookupA sid s.configured = some cmd →
      (lookupA sid s.managed = none →
        doRestart s sid =
          (.error ("Server with ID '" ++ sid ++ "' is not running."), s)) ∧
      ∀ info, lookupA sid s.managed = some info →
        doRestart s sid =
          (.ok ("Restart requested for server with ID '" ++ sid ++ "'."), s) ∧
        (RSInv s → lookupA sid (doRestart s sid).2.stopped = none) ∧
        ((s.managed.map Prod.fst).Nodup → lookupA sid s.stopped = none →
          ∀ launch now3 deadPids pid, info.pid ∈ deadPids →
            launch info.command = some pid →
            lookupA sid
              (monitorTick launch now3 deadPids (doRestart s sid).2).managed =
              some ⟨pid, info.command, now3⟩) := by
  refine ⟨fun hc => doRestart_not_configured hc, fun cmd hc =>
    ⟨fun hm => doRestart_not_running hne hc hm, fun info hm => ?_⟩⟩
  have h := doRestart_ok hne hc hm
  refine ⟨h, fun hinv => ?_, fun hnd hns launch now3 deadPids pid hd hl => ?_⟩
  · rw [h]
    exact hinv sid (by rw [hm]; rfl)
  · rw [h]
    exact monitorTick_relaunch hnd hm hd hns hl

theorem claim_restart_contract_witness :
    lookupA "aaa1111"
      (monitorTick launchOk 20 [41] (doRestart stExampleB "aaa1111").2).managed =
      some ⟨99, ["sleep", "100"], 20⟩ :=
  ((((claim_restart_contract stExampleB "aaa1111" (by decide)).2 ["sleep", "100"]
      (by decide)).2 ⟨41, ["sleep", "100"], 10⟩ (by decide)).2.2 (by decide) (by decide)
      launchOk 20 [41] 99 (by decide) (by decide))

/-- C7: `apply` replaces `configured_servers` wholesale with the reloaded
configuration; every id of the new configuration that is absent from the
running set has its stopped marker cleared and is launched (recorded with
the current timestamp when the spawn succeeds); the response carries the
counts of successful and failed launches, and the handler always returns
a response — partial failure is reported in the message, never raised. -/
theorem claim_apply_contract (launch : List String → Option Nat) (now : Nat)
    (newConf : List (String × List String)) (s : St)
    (hnd : (newConf.map Prod.fst).Nodup) :
    (doApply launch now newConf s).2.configured = newConf ∧
    (∀ p ∈ newConf, lookupA p.1 s.managed = none →
      lookupA p.1 (doApply launch now newConf s).2.stopped = none ∧
      ∀ pid, launch p.2 = some pid →
        lookupA p.1 (doApply launch now newConf s).2.managed = some ⟨pid, p.2, now⟩) ∧
    (doApply launch now newConf s).1 =
      (if (newConf.filter
            (fun q => !(lookupA q.1 s.managed).isSome && !(launch q.2).isSome)).length > 0
       then Resp.error ("Configuration applied. Started " ++
         toString (newConf.filter
           (fun q => !(lookupA q.1 s.managed).isSome && (launch q.2).isSome)).length ++
         " servers, " ++ toString (newConf.filter
           (fun q => !(lookupA q.1 s.managed).isSome && !(launch q.2).isSome)).length ++
         " servers had startup errors.")
       else Resp.ok ("Configuration applied. Started " ++
         toString (newConf.filter
           (fun q => !(lookupA q.1 s.managed).isSome && (launch q.2).isSome)).length ++
         " servers.")) := by
  refine ⟨rfl, ?_, ?_⟩
  · intro p hp hm
    exact applyFold_entry hnd hp ⟨s.managed, s.stopped, 0, 0⟩ hm
  · obtain ⟨h1, h2⟩ := @applyFold_counts launch now newConf ⟨s.managed, s.stopped, 0, 0⟩ hnd
    have hresp : (doApply launch now newConf s).1 =
        (if (newConf.foldl (applyStep launch now) ⟨s.managed, s.stopped, 0, 0⟩).errors > 0
         then Resp.error ("Configuration applied. Started " ++
           toString (newConf.foldl (applyStep launch now)
             ⟨s.managed, s.stopped, 0, 0⟩).started ++ " servers, " ++
           toString (newConf.foldl (applyStep launch now)
             ⟨s.managed, s.stopped, 0, 0⟩).errors ++ " servers had startup errors.")
         else Resp.ok ("Configuration applied. Started " ++
           toString (newConf.foldl (applyStep launch now)
             ⟨s.managed, s.stopped, 0, 0⟩).started ++ " servers.")) := rfl
    rw [hresp, h1, h2]
    simp only [Nat.zero_add]

theorem claim_apply_contract_witness :
    lookupA "ccc3333" (doApply launchOk 5
      [("ccc3333", ["foo"]), ("aaa1111", ["sleep", "100"])] stExampleB).2.stopped = none ∧
    lookupA "ccc3333" (doApply launchOk 5
      [("ccc3333", ["foo"]), ("aaa1111", ["sleep", "100"])] stExampleB).2.managed =
      some ⟨99, ["foo"], 5⟩ :=
  ⟨((claim_apply_contract launchOk 5 [("ccc3333", ["foo"]), ("aaa1111", ["sleep", "100"])]
      stExampleB (by decide)).2.1 ("ccc3333", ["foo"]) (by decide) (by decide)).1,
   ((claim_apply_contract launchOk 5 [("ccc3333", ["foo"]), ("aaa1111", ["sleep", "100"])]
      stExampleB (by decide)).2.1 ("ccc3333", ["foo"]) (by decide) (by decide)).2
     99 (by decide)⟩

/-- C8: `apply` never stops, relaunches or modifies a ServerID already in
the running set — its managed entry survives with the same PID and its
original start timestamp — and a running id removed from the new
configuration stays in the running set (it is not terminated) but appears
in no subsequent status listing. -/
theorem claim_apply_frame (launch : List String → Option Nat) (now now2 : Nat)
    (newConf : List (String × List String)) (s : St) (sid : String)
    (info : ManagedInfo) (hm : lookupA sid s.managed = some info) :
    lookupA sid (doApply launch now newConf s).2.managed = some info ∧
    (sid ∉ newConf.map Prod.fst →
      ∀ e ∈ doStatus (doApply launch now newConf s).2 now2, e.id ≠ sid) := by
  constructor
  · exact applyFold_managed_some newConf ⟨s.managed, s.stopped, 0, 0⟩ hm
  · intro hnot e he
    rcases List.mem_map.mp he with ⟨p, hp, rfl⟩
    rw [statusRow_id]
    intro he'
    exact hnot (he' ▸ List.mem_map_of_mem Prod.fst hp)

theorem claim_apply_frame_witness :
    lookupA "aaa1111" (doApply launchOk 5 [("ddd4444", ["bar"])] stExampleB).2.managed =
      some ⟨41, ["sleep", "100"], 10⟩ :=
  (claim_apply_frame launchOk 5 0 [("ddd4444", ["bar"])] stExampleB "aaa1111"
    ⟨41, ["sleep", "100"], 10⟩ (by decide)).1

/-- C9 counterexample: a malformed (unparseable) request produces NO
response at all — the exception escapes `json.loads`, is caught by the
handler's blanket `except`, logged, and the connection is closed without
any reply — contradicting the claim that every per-request failure yields
exactly one structured error response written to the client. -/
theorem claim_error_reporting_counterexample :
    (handleRequest launchOk 0 (some []) RecvData.malformed stExampleA).1 = none := rfl

/-- C9 amended: the handler is total (no request can raise out of it and
terminate the daemon), and every successfully parsed request receives
exactly one response — unknown commands receive
`{"status":"error","message":"Unknown command."}` — but an empty read, a
malformed/unparseable request, and a configuration parse error during
`apply` yield NO response: the error is only logged and the connection
closed (and in the apply case the registry is left unchanged). -/
theorem claim_error_reporting (launch : List String → Option Nat) (now : Nat)
    (loadRes : Option (List (String × List String))) (command payload : Option String)
    (s : St) :
    (handleRequest launch now loadRes RecvData.empty s).1 = none ∧
    (handleRequest launch now loadRes RecvData.malformed s).1 = none ∧
    (command = some "apply" → loadRes = none →
      handleRequest launch now loadRes (.parsed command payload) s = (none, s)) ∧
    (command ≠ some "status" → command ≠ some "start" → command ≠ some "stop" →
      command ≠ some "restart" → command ≠ some "apply" →
      handleRequest launch now loadRes (.parsed command payload) s =
        (some (.error "Unknown command."), s)) ∧
    ((command = some "status" ∨ command = some "start" ∨ command = some "stop" ∨
      command = some "restart" ∨ (command = some "apply" ∧ loadRes ≠ none)) →
      ((handleRequest launch now loadRes (.parsed command payload) s).1).isSome) := by
  refine ⟨rfl, rfl, ?_, ?_, ?_⟩
  · intro hcmd hload
    subst hcmd
    subst hload
    rfl
  · intro h1 h2 h3 h4 h5
    show (if command = some "status" then (some (Resp.okPayload (doStatus s now)), s)
      else if command = some "start" then
        (some (doStart launch now s (payload.getD "")).1, (doStart launch now s (payload.getD "")).2)
      else if command = some "stop" then
        (some (doStop s (payload.getD "")).1, (doStop s (payload.getD "")).2)
      else if command = some "restart" then
        (some (doRestart s (payload.getD "")).1, (doRestart s (payload.getD "")).2)
      else if command = some "apply" then
        (match loadRes with
         | none => (none, s)
         | some newConf =>
           (some (doApply launch now newConf s).1, (doApply launch now newConf s).2))
      else (some (Resp.error "Unknown command."), s)) =
      (some (Resp.error "Unknown command."), s)
    rw [if_neg h1, if_neg h2, if_neg h3, if_neg h4, if_neg h5]
  · intro hcase
    rcases hcase with h | h | h | h | hh
    · subst h
      rfl
    · subst h
      rfl
    · subst h
      rfl
    · subst h
      rfl
    · obtain ⟨h, hl⟩ := hh
      subst h
      cases loadRes with
      | none => exact absurd rfl hl
      | some c => rfl

theorem claim_error_reporting_witness :
    handleRequest launchOk 3 (some []) (.parsed (some "bogus") none) stExampleA =
      (some (.error "Unknown command."), stExampleA) :=
  (claim_error_reporting launchOk 3 (some []) (some "bogus") none stExampleA).2.2.2.1
    (by decide) (by decide) (by decide) (by decide) (by decide)

/-- C10: `start` is not atomic on launch failure: invoked on a configured
id that carries a stopped marker and is not running, when the launch
fails the marker has already been removed and is not restored — the
operation returns an error yet the registry state changed, and a status
query afterwards reports the id `Idle` rather than `Stopped`. -/
theorem claim_start_nonatomic (launch : List String → Option Nat) (now now2 : Nat)
    (s : St) (sid : String) (cmd : List String) (hne : sid ≠ "")
    (hc : lookupA sid s.configured = some cmd) (hm : lookupA sid s.managed = none)
    (hs : (lookupA sid s.stopped).isSome) (hl : launch cmd = none) :
    (doStart launch now s sid).1 =
      .error ("Failed to start server with ID '" ++ sid ++ "'.") ∧
    lookupA sid (doStart launch now s sid).2.stopped = none ∧
    ∀ e ∈ doStatus (doStart launch now s sid).2 now2, e.id = sid → e.status = "Idle" := by
  have h := @doStart_fail launch now s sid cmd hne hc hm hl
  refine ⟨by rw [h], by rw [h]; exact lookupA_eraseKey_self _ _, ?_⟩
  intro e he hid
  rw [h] at he
  rcases List.mem_map.mp he with ⟨p, hp, rfl⟩
  rw [statusRow_id] at hid
  rw [statusRow_idle (by rw [hid]; exact hm) (by rw [hid]; exact lookupA_eraseKey_self _ _)]

theorem claim_start_nonatomic_witness :
    (doStart launchFail 5 stExampleA "bbb2222").1 =
      .error "Failed to start server with ID 'bbb2222'." ∧
    lookupA "bbb2222" (doStart launchFail 5 stExampleA "bbb2222").2.stopped = none :=
  ⟨(claim_start_nonatomic launchFail 5 0 stExampleA "bbb2222" ["echo", "x"]
      (by decide) (by decide) (by decide) (by decide) (by decide)).1,
   (claim_start_nonatomic launchFail 5 0 stExampleA "bbb2222" ["echo", "x"]
      (by decide) (by decide) (by decide) (by decide) (by decide)).2.1⟩
